import Mathlib

/-!
Verification of the ambient-pad playback engine.

The engine under study is the React hook usePadEngine. Its state lives in
refs and React state; its behaviour is a sequence of event-handler runs on
one logical thread. We embed it as a pure state machine:

  * EngineState collects ctxRef, masterGainRef, currentRef, activeKey,
    volume, cacheRef, actionIdRef and a fresh-node counter that models
    audio-node allocation (node id 0 is reserved for ctx.destination).
  * Each handler becomes a function from a state (plus the values the
    handler reads from the audio engine: the clock ctx.currentTime and the
    instantaneous gain reading gain.gain.value) to a new state and a list
    of Effect values, one per observable audio/DOM command the handler
    issues, in program order.
  * The async function playKey suspends exactly once, at the awaited
    buffer load.  We therefore split it into playStart (the synchronous
    prefix up to and including the issuing of the fetch) and playResolve
    (the continuation that runs when the load settles).  The Pending value
    carries the stamped action id across the suspension, exactly as the
    closure over myId does in the source.

Times and gain levels are rationals; milliseconds stay milliseconds and
seconds arise only as fadeMs / 1000, as in the source.  Buffers are
opaque Nat tokens; what matters is which buffer is cached, returned and
attached, never its content.
-/

namespace AmbientPad

/-- Names of the twelve chromatic keys, in display order (KEYS). -/
def KEYS : List String :=
  ["C", "C#", "D", "D#", ("E" : String), "F", "F#", "G", "G#", "A", "A#", "B"]

/-- Configuration of usePadEngine with the same defaults as the source
constants FADE_MS, AUDIO_BASE, AUDIO_EXT and DEFAULT_VOL. -/
structure Config where
  fadeMs : Rat := 2000
  basePath : String := "/sounds/"
  ext : String := ".mp3"
  initialVolume : Rat := 8 / 10

/-- Replace the first occurrence of pat in s, as the JavaScript method
String.replace does for a string pattern.  Defined over character lists by
structural recursion.  An empty pattern leaves s unchanged (the source only
ever passes the pattern "#"). -/
def startsWithL : List Char → List Char → Bool
  | [], _ => true
  | _ :: _, [] => false
  | p :: ps, c :: cs => p == c && startsWithL ps cs

/-- Recursive worker for replaceFirst: scan for the first occurrence. -/
def replFirstL (pat rep : List Char) : List Char → List Char
  | [] => []
  | c :: cs =>
      if startsWithL pat (c :: cs) then rep ++ (c :: cs).drop pat.length
      else c :: replFirstL pat rep cs

/-- Replace the first occurrence of pat in s by rep. -/
def replaceFirst (s pat rep : String) : String :=
  if pat.isEmpty then s else String.mk (replFirstL pat.toList rep.toList s.toList)

/-- Uppercase hexadecimal digits. -/
def hexDigits : List Char := "0123456789ABCDEF".toList

/-- Percent-escape of one byte, e.g. 35 becomes "%23". -/
def percentByte (b : Nat) : String :=
  String.mk [Char.ofNat 37, hexDigits.getD (b / 16) (Char.ofNat 48),
             hexDigits.getD (b % 16) (Char.ofNat 48)]

/-- UTF-8 bytes of one character (standard four-range encoding). -/
def utf8Bytes (c : Char) : List Nat :=
  let n := c.toNat
  if n < 128 then [n]
  else if n < 2048 then [192 + n / 64, 128 + n % 64]
  else if n < 65536 then [224 + n / 4096, 128 + (n / 64) % 64, 128 + n % 64]
  else [240 + n / 262144, 128 + (n / 4096) % 64, 128 + (n / 64) % 64, 128 + n % 64]

/-- Characters the JavaScript function encodeURIComponent leaves literal:
letters, digits, and - _ . ! ~ * ( ) together with the apostrophe
(code 39). -/
def isUriUnescaped (c : Char) : Bool :=
  c.isAlphanum || "-_.!~*()".toList.contains c || c.toNat == 39

/-- Model of the JavaScript function encodeURIComponent: unescaped
characters pass through, every other character is percent-escaped byte by
byte in UTF-8. -/
def encodeURIComponent (s : String) : String :=
  String.join (s.toList.map fun c =>
    if isUriUnescaped c then String.mk [c]
    else String.join ((utf8Bytes c).map percentByte))

/-- Asset URL of a key in the volume variant (part_000 line 55-56):
basePath + key.replace("#", "sharp") + ext. -/
def volumeUrl (cfg : Config) (key : String) : String :=
  cfg.basePath ++ (replaceFirst key "#" "sharp" ++ cfg.ext)

/-- Asset URL of a key in the simpler variant (App.jsx line 35-36):
basePath + encodeURIComponent(key + ext). -/
def simpleUrl (basePath ext key : String) : String :=
  basePath ++ encodeURIComponent (key ++ ext)

/-- Observable commands a handler issues, in program order: audio-context
management, node allocation and wiring, gain automation, deferred source
stop timers, network fetches and the console error log. -/
inductive Effect where
  | createCtx
  | resumeCtx
  | createBufferSource (src : Nat)
  | setBuffer (src : Nat) (buf : Nat)
  | setLoop (src : Nat)
  | createGain (g : Nat)
  | setValueNow (node : Nat) (v : Rat)
  | connect (a : Nat) (b : Nat)
  | startSource (src : Nat)
  | cancelSched (node : Nat) (t : Rat)
  | setValue (node : Nat) (v : Rat) (t : Rat)
  | linearRamp (node : Nat) (v : Rat) (t : Rat)
  | scheduleStop (src : Nat) (delayMs : Rat)
  | fetch (url : String)
  | logError
deriving DecidableEq, Repr

/-- State of the hook: ctxRef (as a Bool plus a suspended flag mirroring
ctx.state), masterGainRef (node id and its current gain value),
currentRef, the React state activeKey and volume, cacheRef as an
association list, actionIdRef, and the allocator for fresh node ids. -/
structure EngineState where
  ctx : Bool
  suspended : Bool
  masterGain : Option Nat
  masterGainValue : Option Rat
  current : Option (String × Nat × Nat)
  activeKey : Option String
  volume : Rat
  cache : List (String × Nat)
  actionId : Nat
  nextNode : Nat
deriving DecidableEq, Repr

/-- State at mount: all refs null, activeKey null, volume initialVolume,
empty cache, action counter 0.  Node id 0 is reserved for the destination,
so allocation starts at 1. -/
def initState (cfg : Config) : EngineState :=
  { ctx := false
    suspended := false
    masterGain := none
    masterGainValue := none
    current := none
    activeKey := none
    volume := cfg.initialVolume
    cache := []
    actionId := 0
    nextNode := 1 }

/-- Creation half of ensureCtx (part_000 lines 26-34): on first call build
the context, build the master gain, set its value to initialVolume and
connect it to the destination. -/
def ensureCtxCreate (cfg : Config) (st : EngineState) : EngineState × List Effect :=
  if st.ctx then (st, [])
  else
    ({ st with
        ctx := true
        masterGain := some st.nextNode
        masterGainValue := some cfg.initialVolume
        nextNode := st.nextNode + 1 },
     [Effect.createCtx, Effect.createGain st.nextNode,
      Effect.setValueNow st.nextNode cfg.initialVolume,
      Effect.connect st.nextNode 0])

/-- Model of ensureCtx (part_000 lines 25-39): create on demand, then
resume when the context reports the suspended state.  The resume call is
fire-and-forget in the source; we record the command and clear the flag. -/
def ensureCtx (cfg : Config) (st : EngineState) : EngineState × List Effect :=
  let r := ensureCtxCreate cfg st
  if r.1.suspended then ({ r.1 with suspended := false }, r.2 ++ [Effect.resumeCtx])
  else r

/-- Model of a setVolume call together with the effect hook of part_000
lines 42-48 that it triggers: the React state updates always; the master
gain is cancelled and set immediately only when both masterGainRef and
ctxRef are non-null. -/
def setVolumeStep (st : EngineState) (v t0 : Rat) : EngineState × List Effect :=
  let st1 := { st with volume := v }
  match st1.masterGain, st1.ctx with
  | some m, true =>
      ({ st1 with masterGainValue := some v },
       [Effect.cancelSched m t0, Effect.setValue m v t0])
  | _, _ => (st1, [])

/-- Synchronous prefix of loadBuffer (part_000 lines 51-59): a cache hit
returns the cached buffer with no network access at all; otherwise the
URL is formed, the context ensured, and the fetch issued.  The returned
Option Nat is the cached buffer when the cache hit. -/
def loadBufferStart (cfg : Config) (st : EngineState) (key : String) :
    EngineState × Option Nat × List Effect :=
  match st.cache.lookup key with
  | some b => (st, some b, [])
  | none =>
      let url := volumeUrl cfg key
      let r := ensureCtx cfg st
      (r.1, none, r.2 ++ [Effect.fetch url])

/-- Outcome of the awaited part of a cache-missing load: the response was
ok and decoded to a buffer, or the response was not ok (the thrown
Failed-to-load error), or decodeAudioData rejected. -/
inductive LoadOutcome where
  | ok (buf : Nat)
  | httpError
  | decodeError
deriving DecidableEq, Repr

/-- Errors loadBuffer can propagate (spec names them LoadError and
DecodeError). -/
inductive LoadErr where
  | loadError (url : String)
  | decodeError
deriving DecidableEq, Repr

/-- Resolution of loadBuffer (part_000 lines 59-64): with a cached buffer
the promise resolves to it unchanged; on a miss the outcome either throws
before the cache write, or the freshly decoded buffer is cached and
returned. -/
def loadBufferResolve (cfg : Config) (st : EngineState) (key : String)
    (cached : Option Nat) (outcome : LoadOutcome) :
    EngineState × Except LoadErr Nat :=
  match cached with
  | some b => (st, Except.ok b)
  | none =>
      match outcome with
      | LoadOutcome.ok b => ({ st with cache := (key, b) :: st.cache }, Except.ok b)
      | LoadOutcome.httpError => (st, Except.error (LoadErr.loadError (volumeUrl cfg key)))
      | LoadOutcome.decodeError => (st, Except.error LoadErr.decodeError)

/-- Model of stop (part_000 lines 67-84).  t0 is ctx.currentTime and
oldGainVal the reading of old.gain.gain.value at that instant.  Without a
context or a complete current record it only clears the display state;
otherwise cancel, pin the current value, ramp to 0 over fadeMs, schedule
the source stop at fadeMs + 60 ms, and clear both the record and the
display state. -/
def stop (cfg : Config) (st : EngineState) (t0 oldGainVal : Rat) :
    EngineState × List Effect :=
  match st.ctx, st.current with
  | true, some (_, s, g) =>
      ({ st with current := none, activeKey := none },
       [Effect.cancelSched g t0, Effect.setValue g oldGainVal t0,
        Effect.linearRamp g 0 (t0 + cfg.fadeMs / 1000),
        Effect.scheduleStop s (cfg.fadeMs + 60)])
  | _, _ => ({ st with activeKey := none }, [])

/-- Stamp carried across the suspension of playKey: the action id taken at
invocation, the requested key, and the cache lookup result of the
synchronous load prefix. -/
structure Pending where
  myId : Nat
  key : String
  cached : Option Nat
deriving DecidableEq, Repr

/-- Synchronous prefix of playKey (part_000 lines 86-98).  A click on the
key already current delegates to stop and suspends nothing.  Otherwise the
action counter is incremented, the display state optimistically set, the
context ensured and the load started; the returned Pending is the state of
the suspended continuation. -/
def playStart (cfg : Config) (st : EngineState) (key : String) (t0 oldGainVal : Rat) :
    EngineState × List Effect × Option Pending :=
  if st.current.map Prod.fst = some key then
    let r := stop cfg st t0 oldGainVal
    (r.1, r.2, none)
  else
    let myId := st.actionId + 1
    let st1 := { st with actionId := myId, activeKey := some key }
    let r2 := ensureCtx cfg st1
    let r3 := loadBufferStart cfg r2.1 key
    (r3.1, r2.2 ++ r3.2.2, some { myId := myId, key := key, cached := r3.2.1 })

/-- Continuation of playKey after the awaited load settles (part_000 lines
98-135).  On an exception the catch block logs and clears the display
state only when the stamp still matches.  On success the stale check
abandons silently when a newer action was issued; otherwise a fresh source
and gain are allocated and wired (the connect target is the master gain,
always present here because ensureCtx ran in the prefix; getD 0 totalizes
the unreachable null case), playback starts at zero gain, both crossfade
ramps are scheduled from the same t0 over fadeMs, the outgoing source is
scheduled to stop at fadeMs + 60 ms, and the current record is replaced. -/
def playResolve (cfg : Config) (st : EngineState) (p : Pending)
    (outcome : LoadOutcome) (t0 oldGainVal : Rat) : EngineState × List Effect :=
  match loadBufferResolve cfg st p.key p.cached outcome with
  | (st1, Except.error _) =>
      (if p.myId = st1.actionId then { st1 with activeKey := none } else st1,
       [Effect.logError])
  | (st1, Except.ok buf) =>
      if p.myId ≠ st1.actionId then (st1, [])
      else
        let src := st1.nextNode
        let gain := st1.nextNode + 1
        let fadeSec := cfg.fadeMs / 1000
        let newFx : List Effect :=
          [Effect.createBufferSource src, Effect.setBuffer src buf, Effect.setLoop src,
           Effect.createGain gain, Effect.setValueNow gain 0,
           Effect.connect gain (st1.masterGain.getD 0), Effect.connect src gain,
           Effect.startSource src,
           Effect.cancelSched gain t0, Effect.setValue gain 0 t0,
           Effect.linearRamp gain 1 (t0 + fadeSec)]
        let oldFx : List Effect :=
          match st1.current with
          | some (_, oldSrc, oldGain) =>
              [Effect.cancelSched oldGain t0, Effect.setValue oldGain oldGainVal t0,
               Effect.linearRamp oldGain 0 (t0 + fadeSec),
               Effect.scheduleStop oldSrc (cfg.fadeMs + 60)]
          | none => []
        ({ st1 with current := some (p.key, src, gain), nextNode := st1.nextNode + 2 },
         newFx ++ oldFx)

/-- One complete, uninterrupted play action: the synchronous prefix and,
when it suspends, the resolution of exactly the stamp it issued, with no
other action in between. -/
def playCall (cfg : Config) (st : EngineState) (key : String)
    (outcome : LoadOutcome) (t0 g0 t1 g1 : Rat) : EngineState × List Effect :=
  match playStart cfg st key t0 g0 with
  | (st1, es1, none) => (st1, es1)
  | (st1, es1, some p) =>
      let r := playResolve cfg st1 p outcome t1 g1
      (r.1, es1 ++ r.2)

/-- Sample configuration for concrete runs: the source defaults except a
whole-number initial volume. -/
def cfgW : Config := { initialVolume := 1 }

/-- Freshly mounted engine. -/
def stIdle : EngineState := initState cfgW

/-- Engine with a pad current: context live, master gain node 1, pad D
playing through source node 2 and gain node 3, its buffer (token 7)
cached, three actions issued so far. -/
def stLive : EngineState :=
  { ctx := true
    suspended := false
    masterGain := some 1
    masterGainValue := some 1
    current := some ("D", 2, 3)
    activeKey := some "D"
    volume := 1
    cache := [("D", 7)]
    actionId := 3
    nextNode := 4 }

/-- State after the first play prefix (key C) on the fresh engine: context
and master gain created, display optimistic, stamp 1 issued. -/
def sAW : EngineState :=
  { ctx := true
    suspended := false
    masterGain := some 1
    masterGainValue := some 1
    current := none
    activeKey := some "C"
    volume := 1
    cache := []
    actionId := 1
    nextNode := 2 }

/-- Commands of the first play prefix on the fresh engine. -/
def esAW : List Effect :=
  [Effect.createCtx, Effect.createGain 1, Effect.setValueNow 1 1, Effect.connect 1 0,
   Effect.fetch "/sounds/C.mp3"]

/-- Stamp of the first play prefix. -/
def pWA : Pending := ⟨1, "C", none⟩

/-- State after the second play prefix (key E), issued before the first
resolves: stamp 2 is now the latest. -/
def sBW : EngineState :=
  { ctx := true
    suspended := false
    masterGain := some 1
    masterGainValue := some 1
    current := none
    activeKey := some "E"
    volume := 1
    cache := []
    actionId := 2
    nextNode := 2 }

/-- Commands of the second play prefix. -/
def esBW : List Effect := [Effect.fetch "/sounds/E.mp3"]

/-- Stamp of the second play prefix. -/
def pWB : Pending := ⟨2, "E", none⟩

/-! Helper lemmas: projections of the step functions. -/

/-- The action counter is untouched by ensureCtx. -/
theorem ensureCtx_actionId (cfg : Config) (st : EngineState) :
    (ensureCtx cfg st).1.actionId = st.actionId := by
  cases hct : st.ctx <;> cases hsu : st.suspended <;>
    simp [ensureCtx, ensureCtxCreate, hct, hsu]

/-- The current record is untouched by ensureCtx. -/
theorem ensureCtx_current (cfg : Config) (st : EngineState) :
    (ensureCtx cfg st).1.current = st.current := by
  cases hct : st.ctx <;> cases hsu : st.suspended <;>
    simp [ensureCtx, ensureCtxCreate, hct, hsu]

/-- The display state is untouched by ensureCtx. -/
theorem ensureCtx_activeKey (cfg : Config) (st : EngineState) :
    (ensureCtx cfg st).1.activeKey = st.activeKey := by
  cases hct : st.ctx <;> cases hsu : st.suspended <;>
    simp [ensureCtx, ensureCtxCreate, hct, hsu]

/-- The buffer cache is untouched by ensureCtx. -/
theorem ensureCtx_cache (cfg : Config) (st : EngineState) :
    (ensureCtx cfg st).1.cache = st.cache := by
  cases hct : st.ctx <;> cases hsu : st.suspended <;>
    simp [ensureCtx, ensureCtxCreate, hct, hsu]

/-- The volume state is untouched by ensureCtx. -/
theorem ensureCtx_volume (cfg : Config) (st : EngineState) :
    (ensureCtx cfg st).1.volume = st.volume := by
  cases hct : st.ctx <;> cases hsu : st.suspended <;>
    simp [ensureCtx, ensureCtxCreate, hct, hsu]

/-- After ensureCtx the context exists. -/
theorem ensureCtx_ctx (cfg : Config) (st : EngineState) :
    (ensureCtx cfg st).1.ctx = true := by
  cases hct : st.ctx <;> cases hsu : st.suspended <;>
    simp [ensureCtx, ensureCtxCreate, hct, hsu]

/-- After ensureCtx the context is not suspended. -/
theorem ensureCtx_suspended (cfg : Config) (st : EngineState) :
    (ensureCtx cfg st).1.suspended = false := by
  cases hct : st.ctx <;> cases hsu : st.suspended <;>
    simp [ensureCtx, ensureCtxCreate, hct, hsu]

/-- On a live, running context ensureCtx is the identity with no effects
(idempotence of the lazy singleton). -/
theorem ensureCtx_noop (cfg : Config) (st : EngineState)
    (hc : st.ctx = true) (hs : st.suspended = false) :
    ensureCtx cfg st = (st, []) := by
  simp [ensureCtx, ensureCtxCreate, hc, hs]

/-- Characterization of a non-toggling playKey prefix: the whole triple it
returns, with the inner load prefix resolved against the unchanged cache. -/
theorem playStart_eq (cfg : Config) (st : EngineState) (key : String) (t0 g0 : Rat)
    (h : st.current.map Prod.fst ≠ some key) :
    playStart cfg st key t0 g0 =
      ((ensureCtx cfg { st with actionId := st.actionId + 1, activeKey := some key }).1,
       (ensureCtx cfg { st with actionId := st.actionId + 1, activeKey := some key }).2
         ++ (match st.cache.lookup key with
             | some _ => []
             | none => [Effect.fetch (volumeUrl cfg key)]),
       some { myId := st.actionId + 1, key := key, cached := st.cache.lookup key }) := by
  have hcache : (ensureCtx cfg
      { st with actionId := st.actionId + 1, activeKey := some key }).1.cache = st.cache := by
    rw [ensureCtx_cache]
  simp only [playStart, if_neg h, loadBufferStart, hcache]
  cases hlk : st.cache.lookup key with
  | some b => simp [hlk]
  | none =>
      rw [ensureCtx_noop cfg _ (ensureCtx_ctx cfg _) (ensureCtx_suspended cfg _)]
      simp [hlk]

/-- Projections of a non-toggling playKey prefix: the counter advances by
one, the current record and cache survive, the display state is set
optimistically, the context is live, and the stamp carried across the
suspension is exactly the new counter with the cache lookup. -/
theorem playStart_proj (cfg : Config) (st : EngineState) (key : String) (t0 g0 : Rat)
    (h : st.current.map Prod.fst ≠ some key) :
    (playStart cfg st key t0 g0).1.actionId = st.actionId + 1
    ∧ (playStart cfg st key t0 g0).1.current = st.current
    ∧ (playStart cfg st key t0 g0).1.activeKey = some key
    ∧ (playStart cfg st key t0 g0).1.cache = st.cache
    ∧ (playStart cfg st key t0 g0).1.ctx = true
    ∧ (playStart cfg st key t0 g0).2.2
        = some { myId := st.actionId + 1, key := key, cached := st.cache.lookup key } := by
  rw [playStart_eq cfg st key t0 g0 h]
  refine ⟨?_, ?_, ?_, ?_, ?_, rfl⟩
  · rw [ensureCtx_actionId]
  · rw [ensureCtx_current]
  · rw [ensureCtx_activeKey]
  · rw [ensureCtx_cache]
  · rw [ensureCtx_ctx]

/-- A resolution whose stamp no longer matches the latest issued id leaves
the current record, the display state and the counter untouched and starts
no source (silent abandonment; only the cache may have gained the decoded
buffer inside loadBuffer). -/
theorem playResolve_stale (cfg : Config) (st : EngineState) (p : Pending)
    (outcome : LoadOutcome) (t0 g0 : Rat) (h : p.myId ≠ st.actionId) :
    (playResolve cfg st p outcome t0 g0).1.current = st.current
    ∧ (playResolve cfg st p outcome t0 g0).1.activeKey = st.activeKey
    ∧ (playResolve cfg st p outcome t0 g0).1.actionId = st.actionId
    ∧ ∀ n, Effect.startSource n ∉ (playResolve cfg st p outcome t0 g0).2 := by
  cases hc : p.cached <;> cases ho : outcome <;>
    simp [playResolve, loadBufferResolve, hc, ho, h]

/-- A resolution whose stamp still matches and whose load succeeded (from
cache or from a decoded fetch) installs the new pad: fresh source and gain
ids, playback from zero gain, the up-ramp, and, when an outgoing pad
exists, the simultaneous down-ramp and deferred stop. -/
theorem playResolve_fresh (cfg : Config) (st : EngineState) (p : Pending)
    (outcome : LoadOutcome) (b : Nat) (t0 g0 : Rat)
    (hid : p.myId = st.actionId)
    (hbuf : p.cached = some b ∨ (p.cached = none ∧ outcome = LoadOutcome.ok b)) :
    (playResolve cfg st p outcome t0 g0).1.current
        = some (p.key, st.nextNode, st.nextNode + 1)
    ∧ (playResolve cfg st p outcome t0 g0).1.activeKey = st.activeKey
    ∧ (playResolve cfg st p outcome t0 g0).1.actionId = st.actionId
    ∧ (playResolve cfg st p outcome t0 g0).1.ctx = st.ctx
    ∧ (playResolve cfg st p outcome t0 g0).2 =
        [Effect.createBufferSource st.nextNode, Effect.setBuffer st.nextNode b,
         Effect.setLoop st.nextNode, Effect.createGain (st.nextNode + 1),
         Effect.setValueNow (st.nextNode + 1) 0,
         Effect.connect (st.nextNode + 1) (st.masterGain.getD 0),
         Effect.connect st.nextNode (st.nextNode + 1),
         Effect.startSource st.nextNode,
         Effect.cancelSched (st.nextNode + 1) t0,
         Effect.setValue (st.nextNode + 1) 0 t0,
         Effect.linearRamp (st.nextNode + 1) 1 (t0 + cfg.fadeMs / 1000)]
        ++ (match st.current with
            | some (_, oldSrc, oldGain) =>
                [Effect.cancelSched oldGain t0, Effect.setValue oldGain g0 t0,
                 Effect.linearRamp oldGain 0 (t0 + cfg.fadeMs / 1000),
                 Effect.scheduleStop oldSrc (cfg.fadeMs + 60)]
            | none => []) := by
  rcases hbuf with hc | ⟨hc, ho⟩
  · simp [playResolve, loadBufferResolve, hc, hid]
  · subst ho
    simp [playResolve, loadBufferResolve, hc, hid]

/-- The action counter is untouched by stop. -/
theorem stop_actionId (cfg : Config) (st : EngineState) (t0 g0 : Rat) :
    (stop cfg st t0 g0).1.actionId = st.actionId := by
  cases hct : st.ctx <;> cases hcur : st.current <;> simp [stop, hct, hcur]

/-- A playKey prefix that issued a stamp did not take the toggle branch. -/
theorem playStart_some_nontoggle (cfg : Config) (st : EngineState) (key : String)
    (t0 g0 : Rat) (s : EngineState) (es : List Effect) (p : Pending)
    (h : playStart cfg st key t0 g0 = (s, es, some p)) :
    st.current.map Prod.fst ≠ some key := by
  intro hc
  have h2 := congrArg (fun r => r.2.2) h
  simp only [playStart, if_pos hc] at h2
  simp at h2

/-! Claims. -/

/-- C1: stale suppression.  When two play prefixes are issued in order
(the second before the first resolves), the first stamp no longer equals
the latest issued id, so resolving it — with any outcome — leaves the
current record, the display state unchanged and starts no source; and the
second stamp, resolving afterwards, installs its own key as the playing
pad, so only the later selection ends up playing. -/
theorem stale_suppression (cfg : Config) (st : EngineState) (A B : String)
    (t0 t1 t2 t3 g0 g1 g2 g3 : Rat) (outcome : LoadOutcome) (bB : Nat) :
    ∀ sA esA pA, playStart cfg st A t0 g0 = (sA, esA, some pA) →
    ∀ sB esB pB, playStart cfg sA B t1 g1 = (sB, esB, some pB) →
      pA.myId ≠ sB.actionId
      ∧ (playResolve cfg sB pA outcome t2 g2).1.current = sB.current
      ∧ (playResolve cfg sB pA outcome t2 g2).1.activeKey = sB.activeKey
      ∧ (∀ n, Effect.startSource n ∉ (playResolve cfg sB pA outcome t2 g2).2)
      ∧ (playResolve cfg (playResolve cfg sB pA outcome t2 g2).1 pB
          (LoadOutcome.ok bB) t3 g3).1.current.map Prod.fst = some B := by
  intro sA esA pA hA sB esB pB hB
  have hAc := playStart_some_nontoggle cfg st A t0 g0 sA esA pA hA
  have eA_act : sA.actionId = st.actionId + 1 := by
    have h2 := (playStart_proj cfg st A t0 g0 hAc).1
    rw [hA] at h2
    exact h2
  have epA : pA = ⟨st.actionId + 1, A, st.cache.lookup A⟩ := by
    have h2 := (playStart_proj cfg st A t0 g0 hAc).2.2.2.2.2
    rw [hA] at h2
    exact Option.some.inj h2
  have epA_my : pA.myId = st.actionId + 1 := by rw [epA]
  have hBc := playStart_some_nontoggle cfg sA B t1 g1 sB esB pB hB
  have eB_act : sB.actionId = sA.actionId + 1 := by
    have h2 := (playStart_proj cfg sA B t1 g1 hBc).1
    rw [hB] at h2
    exact h2
  have epB : pB = ⟨sA.actionId + 1, B, sA.cache.lookup B⟩ := by
    have h2 := (playStart_proj cfg sA B t1 g1 hBc).2.2.2.2.2
    rw [hB] at h2
    exact Option.some.inj h2
  have epB_my : pB.myId = sA.actionId + 1 := by rw [epB]
  have epB_key : pB.key = B := by rw [epB]
  have hne : pA.myId ≠ sB.actionId := by
    rw [epA_my, eB_act, eA_act]
    omega
  obtain ⟨s_cur, s_key, s_act, s_nostart⟩ := playResolve_stale cfg sB pA outcome t2 g2 hne
  refine ⟨hne, s_cur, s_key, s_nostart, ?_⟩
  have hid : pB.myId = (playResolve cfg sB pA outcome t2 g2).1.actionId := by
    rw [epB_my, s_act, eB_act]
  rcases hlk : pB.cached with _ | bHit
  · obtain ⟨f_cur, -, -, -, -⟩ :=
      playResolve_fresh cfg (playResolve cfg sB pA outcome t2 g2).1 pB
        (LoadOutcome.ok bB) bB t3 g3 hid (Or.inr ⟨hlk, rfl⟩)
    rw [f_cur]
    simp [epB_key]
  · obtain ⟨f_cur, -, -, -, -⟩ :=
      playResolve_fresh cfg (playResolve cfg sB pA outcome t2 g2).1 pB
        (LoadOutcome.ok bB) bHit t3 g3 hid (Or.inl hlk)
    rw [f_cur]
    simp [epB_key]

/-- C5: stop() contract and idempotence.  With no current pad (or no
context) stop only clears the active-key display state, throws nothing
and emits no audio commands, so repeated stop calls are safe; with a
current pad it ramps that gain from its current reading to 0 over the
fade duration, schedules the source stop shortly after (fadeMs + 60 ms),
clears the current record and clears the display state. -/
theorem stop_contract (cfg : Config) (st : EngineState) (t0 t1 v v1 : Rat) :
    ((st.ctx = false ∨ st.current = none) →
        stop cfg st t0 v = ({ st with activeKey := none }, []))
    ∧ (∀ k s g, st.ctx = true → st.current = some (k, s, g) →
        stop cfg st t0 v =
          ({ st with current := none, activeKey := none },
           [Effect.cancelSched g t0, Effect.setValue g v t0,
            Effect.linearRamp g 0 (t0 + cfg.fadeMs / 1000),
            Effect.scheduleStop s (cfg.fadeMs + 60)]))
    ∧ (st.current = none →
        stop cfg (stop cfg st t0 v).1 t1 v1 = ((stop cfg st t0 v).1, [])) := by
  refine ⟨?_, ?_, ?_⟩
  · rintro (hc | hc)
    · cases hcur : st.current <;> simp [stop, hc, hcur]
    · cases hct : st.ctx <;> simp [stop, hc, hct]
  · rintro k s g hc hcur
    simp [stop, hc, hcur]
  · intro hcur
    cases hct : st.ctx <;> simp [stop, hct, hcur]

/-- Witness for C5: on the live state stop fades out pad D and clears the
record; on the idle state it only clears the display, twice over. -/
theorem stop_contract_witness :
    stop cfgW stLive 0 1 =
      ({ stLive with current := none, activeKey := none },
       [Effect.cancelSched 3 0, Effect.setValue 3 1 0,
        Effect.linearRamp 3 0 (0 + cfgW.fadeMs / 1000),
        Effect.scheduleStop 2 (cfgW.fadeMs + 60)])
    ∧ stop cfgW stIdle 0 0 = ({ stIdle with activeKey := none }, [])
    ∧ stop cfgW (stop cfgW stIdle 0 0).1 0 0 = ((stop cfgW stIdle 0 0).1, []) :=
  ⟨(stop_contract cfgW stLive 0 0 1 1).2.1 "D" 2 3 rfl rfl,
   (stop_contract cfgW stIdle 0 0 0 0).1 (Or.inr rfl),
   (stop_contract cfgW stIdle 0 0 0 0).2.2 rfl⟩

/-- C6: loadBuffer cache semantics.  A cached key resolves immediately to
the cached buffer with no fetch at all; on a miss an http failure or a
decode failure propagates as the corresponding error with the cache (and
the whole state) unchanged, and only a successful decode inserts into the
cache. -/
theorem loadBuffer_cache (cfg : Config) (st : EngineState) (key : String) :
    (∀ b, st.cache.lookup key = some b →
        loadBufferStart cfg st key = (st, some b, [])
        ∧ ∀ outcome, loadBufferResolve cfg st key (some b) outcome = (st, Except.ok b))
    ∧ (loadBufferResolve cfg st key none LoadOutcome.httpError
        = (st, Except.error (LoadErr.loadError (volumeUrl cfg key))))
    ∧ (loadBufferResolve cfg st key none LoadOutcome.decodeError
        = (st, Except.error LoadErr.decodeError))
    ∧ (∀ b, loadBufferResolve cfg st key none (LoadOutcome.ok b)
        = ({ st with cache := (key, b) :: st.cache }, Except.ok b)) := by
  refine ⟨?_, ?_, ?_, ?_⟩
  · intro b hb
    exact ⟨by simp [loadBufferStart, hb], fun outcome => by simp [loadBufferResolve]⟩
  · simp [loadBufferResolve]
  · simp [loadBufferResolve]
  · intro b; simp [loadBufferResolve]

/-- Witness for C6: on the live state the cached pad D is returned with no
fetch, and a missing pad C fails without caching. -/
theorem loadBuffer_cache_witness :
    (loadBufferStart cfgW stLive "D" = (stLive, some 7, [])
      ∧ loadBufferResolve cfgW stLive "D" (some 7) LoadOutcome.httpError
          = (stLive, Except.ok 7))
    ∧ loadBufferResolve cfgW stLive "C" none LoadOutcome.httpError
        = (stLive, Except.error (LoadErr.loadError (volumeUrl cfgW "C")))
    ∧ loadBufferResolve cfgW stLive "C" none LoadOutcome.decodeError
        = (stLive, Except.error LoadErr.decodeError) :=
  ⟨⟨((loadBuffer_cache cfgW stLive "D").1 7 (by decide)).1,
    ((loadBuffer_cache cfgW stLive "D").1 7 (by decide)).2 LoadOutcome.httpError⟩,
   (loadBuffer_cache cfgW stLive "C").2.1,
   (loadBuffer_cache cfgW stLive "C").2.2.1⟩

/-- C7: failure semantics of the play continuation.  When the awaited load
of a cache miss fails, the only command is the error log: no fetch retry
and no audio start; the current record, cache, counter and volume are
unchanged and the display state is cleared exactly when no newer action
has superseded this one. -/
theorem play_failure_semantics (cfg : Config) (st : EngineState) (p : Pending)
    (t0 g0 : Rat) (outcome : LoadOutcome)
    (hmiss : p.cached = none)
    (hfail : outcome = LoadOutcome.httpError ∨ outcome = LoadOutcome.decodeError) :
    (playResolve cfg st p outcome t0 g0).2 = [Effect.logError]
    ∧ (playResolve cfg st p outcome t0 g0).1.current = st.current
    ∧ (playResolve cfg st p outcome t0 g0).1.cache = st.cache
    ∧ (playResolve cfg st p outcome t0 g0).1.actionId = st.actionId
    ∧ (playResolve cfg st p outcome t0 g0).1.volume = st.volume
    ∧ (playResolve cfg st p outcome t0 g0).1.activeKey
        = (if p.myId = st.actionId then none else st.activeKey) := by
  rcases hfail with h | h <;> subst h <;>
    refine ⟨?_, ?_, ?_, ?_, ?_, ?_⟩ <;>
      simp [playResolve, loadBufferResolve, hmiss] <;>
      (try (split <;> simp))

/-- Witness for C7: a failing load whose stamp still matches (id 3 on the
live state) logs, keeps pad D current, and clears the display state. -/
theorem play_failure_semantics_witness :
    (playResolve cfgW stLive ⟨3, "C", none⟩ LoadOutcome.httpError 0 0).2 = [Effect.logError]
    ∧ (playResolve cfgW stLive ⟨3, "C", none⟩ LoadOutcome.httpError 0 0).1.current = stLive.current
    ∧ (playResolve cfgW stLive ⟨3, "C", none⟩ LoadOutcome.httpError 0 0).1.cache = stLive.cache
    ∧ (playResolve cfgW stLive ⟨3, "C", none⟩ LoadOutcome.httpError 0 0).1.actionId = stLive.actionId
    ∧ (playResolve cfgW stLive ⟨3, "C", none⟩ LoadOutcome.httpError 0 0).1.volume = stLive.volume
    ∧ (playResolve cfgW stLive ⟨3, "C", none⟩ LoadOutcome.httpError 0 0).1.activeKey
        = (if (Pending.mk 3 "C" none).myId = stLive.actionId then none else stLive.activeKey) :=
  play_failure_semantics cfgW stLive ⟨3, "C", none⟩ 0 0 LoadOutcome.httpError rfl (Or.inl rfl)

/-- C8: setVolume immediacy.  For a level in the unit range, with the
master gain present and the context live, a volume change cancels pending
automation on the master gain and sets it at once to the level; the only
commands are that cancel and that set (in particular no ramp), and the
master gain value equals the level right after the call. -/
theorem setVolume_immediate (st : EngineState) (v t0 : Rat) (m : Nat)
    (h0 : 0 ≤ v) (h1 : v ≤ 1)
    (hm : st.masterGain = some m) (hctx : st.ctx = true) :
    setVolumeStep st v t0 =
      ({ st with volume := v, masterGainValue := some v },
       [Effect.cancelSched m t0, Effect.setValue m v t0]) := by
  simp [setVolumeStep, hm, hctx]

/-- Witness for C8: setting level 1 at time 0 on the live state. -/
theorem setVolume_immediate_witness :
    (0 : Rat) ≤ 1 ∧ (1 : Rat) ≤ 1
    ∧ setVolumeStep stLive 1 0 =
        ({ stLive with volume := 1, masterGainValue := some 1 },
         [Effect.cancelSched 1 0, Effect.setValue 1 1 0]) :=
  ⟨by decide, by decide, setVolume_immediate stLive 1 0 1 (by decide) (by decide) rfl rfl⟩

/-- C9: asset URL construction.  The key set is exactly the twelve
chromatic names; under the default base path and extension the volume
variant substitutes sharp for the hash sign and the simpler variant
percent-encodes the raw name; and the load prefix only ever fetches the
URL of the key it was asked for (one fetch on a miss, none on a hit). -/
theorem asset_url_construction :
    KEYS = ["C", "C#", "D", "D#", "E", "F", "F#", ("G" : String), "G#", "A", "A#", "B"]
    ∧ KEYS.map (fun k => volumeUrl {} k) =
        ["/sounds/C.mp3", "/sounds/Csharp.mp3", "/sounds/D.mp3", "/sounds/Dsharp.mp3",
         "/sounds/E.mp3", "/sounds/F.mp3", "/sounds/Fsharp.mp3", "/sounds/G.mp3",
         "/sounds/Gsharp.mp3", "/sounds/A.mp3", "/sounds/Asharp.mp3", "/sounds/B.mp3"]
    ∧ KEYS.map (simpleUrl "/sounds/" ".mp3") =
        ["/sounds/C.mp3", "/sounds/C%23.mp3", "/sounds/D.mp3", "/sounds/D%23.mp3",
         "/sounds/E.mp3", "/sounds/F.mp3", "/sounds/F%23.mp3", "/sounds/G.mp3",
         "/sounds/G%23.mp3", "/sounds/A.mp3", "/sounds/A%23.mp3", "/sounds/B.mp3"]
    ∧ ∀ cfg st k,
        (loadBufferStart cfg st k).2.2 = []
        ∨ (loadBufferStart cfg st k).2.2
            = (ensureCtx cfg st).2 ++ [Effect.fetch (volumeUrl cfg k)] := by
  refine ⟨rfl, by decide, by decide, ?_⟩
  intro cfg st k
  cases hlk : st.cache.lookup k
  · right; simp [loadBufferStart, hlk]
  · left; simp [loadBufferStart, hlk]

/-- C10: a volume change made before the audio context exists never
reaches the audio graph: no command is emitted and the master gain value
is untouched, while the UI volume state does change; when ensureCtx later
creates the master gain it initializes it to the configured initial
volume, not to the most recently set volume, so the early change is
silently dropped from the audible output. -/
theorem preplay_volume_dropped (cfg : Config) (st : EngineState) (v t0 : Rat)
    (hctx : st.ctx = false) :
    (setVolumeStep st v t0).2 = []
    ∧ (setVolumeStep st v t0).1.masterGainValue = st.masterGainValue
    ∧ (setVolumeStep st v t0).1.volume = v
    ∧ (ensureCtx cfg (setVolumeStep st v t0).1).1.masterGainValue = some cfg.initialVolume
    ∧ (ensureCtx cfg (setVolumeStep st v t0).1).1.volume = v
    ∧ (v ≠ cfg.initialVolume →
        (ensureCtx cfg (setVolumeStep st v t0).1).1.masterGainValue ≠ some v) := by
  refine ⟨?_, ?_, ?_, ?_, ?_, ?_⟩ <;>
    cases hmg : st.masterGain <;> cases hsu : st.suspended <;>
      simp [setVolumeStep, ensureCtx, ensureCtxCreate, hctx, hmg, hsu] <;>
      exact fun h h2 => h h2.symm

/-- Witness for C10: setting level 0 on the freshly mounted engine (whose
configured initial volume is 1) is dropped from the graph. -/
theorem preplay_volume_dropped_witness :
    (setVolumeStep stIdle 0 0).2 = []
    ∧ (setVolumeStep stIdle 0 0).1.masterGainValue = stIdle.masterGainValue
    ∧ (setVolumeStep stIdle 0 0).1.volume = 0
    ∧ (ensureCtx cfgW (setVolumeStep stIdle 0 0).1).1.masterGainValue = some cfgW.initialVolume
    ∧ (ensureCtx cfgW (setVolumeStep stIdle 0 0).1).1.volume = 0
    ∧ ((0 : Rat) ≠ cfgW.initialVolume →
        (ensureCtx cfgW (setVolumeStep stIdle 0 0).1).1.masterGainValue ≠ some 0) :=
  preplay_volume_dropped cfgW stIdle 0 0 rfl

/-- Witness for C1: play C then play E on the fresh engine; the late
resolution of stamp 1 (here a failing one; any outcome is covered) changes
nothing, and resolving stamp 2 makes E the playing pad. -/
theorem stale_suppression_witness :
    pWA.myId ≠ sBW.actionId
    ∧ (playResolve cfgW sBW pWA LoadOutcome.httpError 0 0).1.current = sBW.current
    ∧ (playResolve cfgW sBW pWA LoadOutcome.httpError 0 0).1.activeKey = sBW.activeKey
    ∧ (∀ n, Effect.startSource n ∉ (playResolve cfgW sBW pWA LoadOutcome.httpError 0 0).2)
    ∧ (playResolve cfgW (playResolve cfgW sBW pWA LoadOutcome.httpError 0 0).1 pWB
        (LoadOutcome.ok 9) 0 0).1.current.map Prod.fst = some "E" :=
  stale_suppression cfgW stIdle "C" "E" 0 0 0 0 0 0 0 0 LoadOutcome.httpError 9
    sAW esAW pWA (by decide) sBW esBW pWB (by decide)

/-- C2: toggle law.  From a state where k is not the current key, one
complete play of k makes k current; a second play of k then takes the
toggle branch, returning exactly what stop returns with no stamp issued,
and the engine ends with no pad current and no active key. -/
theorem toggle_law (cfg : Config) (st : EngineState) (k : String)
    (t0 t1 t2 g0 g1 g2 : Rat) (outcome : LoadOutcome) (b : Nat)
    (hk : st.current.map Prod.fst ≠ some k)
    (hbuf : st.cache.lookup k = some b
      ∨ (st.cache.lookup k = none ∧ outcome = LoadOutcome.ok b)) :
    (playCall cfg st k outcome t0 g0 t1 g1).1.current.map Prod.fst = some k
    ∧ playStart cfg (playCall cfg st k outcome t0 g0 t1 g1).1 k t2 g2
        = ((stop cfg (playCall cfg st k outcome t0 g0 t1 g1).1 t2 g2).1,
           (stop cfg (playCall cfg st k outcome t0 g0 t1 g1).1 t2 g2).2, none)
    ∧ (playStart cfg (playCall cfg st k outcome t0 g0 t1 g1).1 k t2 g2).1.current = none
    ∧ (playStart cfg (playCall cfg st k outcome t0 g0 t1 g1).1 k t2 g2).1.activeKey
        = none := by
  rcases hps : playStart cfg st k t0 g0 with ⟨s1, es1, po⟩
  have hpo : po = some ⟨st.actionId + 1, k, st.cache.lookup k⟩ := by
    have h2 := (playStart_proj cfg st k t0 g0 hk).2.2.2.2.2
    rw [hps] at h2
    exact h2
  subst hpo
  have e_act : s1.actionId = st.actionId + 1 := by
    have h2 := (playStart_proj cfg st k t0 g0 hk).1
    rw [hps] at h2
    exact h2
  have e_ctx : s1.ctx = true := by
    have h2 := (playStart_proj cfg st k t0 g0 hk).2.2.2.2.1
    rw [hps] at h2
    exact h2
  have hcall : playCall cfg st k outcome t0 g0 t1 g1
      = ((playResolve cfg s1 ⟨st.actionId + 1, k, st.cache.lookup k⟩ outcome t1 g1).1,
         es1 ++ (playResolve cfg s1 ⟨st.actionId + 1, k, st.cache.lookup k⟩
           outcome t1 g1).2) := by
    simp [playCall, hps]
  have hid : (⟨st.actionId + 1, k, st.cache.lookup k⟩ : Pending).myId = s1.actionId := by
    rw [e_act]
  obtain ⟨f_cur, f_key, f_act, f_ctx, f_fx⟩ :=
    playResolve_fresh cfg s1 ⟨st.actionId + 1, k, st.cache.lookup k⟩ outcome b t1 g1 hid hbuf
  have hctx2 : (playResolve cfg s1 ⟨st.actionId + 1, k, st.cache.lookup k⟩
      outcome t1 g1).1.ctx = true := by
    rw [f_ctx, e_ctx]
  have hcond : (playResolve cfg s1 ⟨st.actionId + 1, k, st.cache.lookup k⟩
      outcome t1 g1).1.current.map Prod.fst = some k := by
    rw [f_cur]
    rfl
  rw [hcall]
  refine ⟨hcond, ?_, ?_, ?_⟩
  · simp [playStart, hcond]
  · simp [playStart, hcond, stop, hctx2, f_cur]
  · simp [playStart, hcond, stop, hctx2, f_cur]

/-- Witness for C2: a complete play of C on the fresh engine followed by a
second play of C stops everything. -/
theorem toggle_law_witness :
    (playCall cfgW stIdle "C" (LoadOutcome.ok 5) 0 0 0 0).1.current.map Prod.fst = some "C"
    ∧ playStart cfgW (playCall cfgW stIdle "C" (LoadOutcome.ok 5) 0 0 0 0).1 "C" 0 0
        = ((stop cfgW (playCall cfgW stIdle "C" (LoadOutcome.ok 5) 0 0 0 0).1 0 0).1,
           (stop cfgW (playCall cfgW stIdle "C" (LoadOutcome.ok 5) 0 0 0 0).1 0 0).2, none)
    ∧ (playStart cfgW (playCall cfgW stIdle "C" (LoadOutcome.ok 5) 0 0 0 0).1 "C" 0 0).1.current
        = none
    ∧ (playStart cfgW
        (playCall cfgW stIdle "C" (LoadOutcome.ok 5) 0 0 0 0).1 "C" 0 0).1.activeKey
        = none :=
  toggle_law cfgW stIdle "C" 0 0 0 0 0 0 (LoadOutcome.ok 5) 5 (by decide)
    (Or.inr ⟨rfl, rfl⟩)

/-- Counterexample to C3 as stated: on the fresh engine, play C suspends
with stamp 1; a stop issued during the load clears the display; yet when
the load then resolves, the stale check still passes (stop never bumps
the action counter), the source starts and the current record is
replaced — the superseding stop did not discard the in-flight play. -/
theorem stop_does_not_cancel_cex :
    (playStart cfgW stIdle "C" 0 0).2.2 = some ⟨1, "C", none⟩
    ∧ (stop cfgW (playStart cfgW stIdle "C" 0 0).1 1 0).1.activeKey = none
    ∧ (stop cfgW (playStart cfgW stIdle "C" 0 0).1 1 0).1.current = none
    ∧ Effect.startSource 2 ∈
        (playResolve cfgW (stop cfgW (playStart cfgW stIdle "C" 0 0).1 1 0).1
          ⟨1, "C", none⟩ (LoadOutcome.ok 7) 2 0).2
    ∧ (playResolve cfgW (stop cfgW (playStart cfgW stIdle "C" 0 0).1 1 0).1
        ⟨1, "C", none⟩ (LoadOutcome.ok 7) 2 0).1.current = some ("C", 2, 3) := by
  exact ⟨by decide, by decide, by decide, by decide, by decide⟩

/-- C3 (amended): an in-flight play is discarded by any later play call,
which bumps the action counter past its stamp; stop leaves the counter
unchanged, so a play resolving successfully after a stop is not
discarded — it starts its source and installs itself as the current
pad. -/
theorem cancellation_amended (cfg : Config) (st : EngineState) (t0 g0 : Rat) :
    (stop cfg st t0 g0).1.actionId = st.actionId
    ∧ (∀ k t g, st.current.map Prod.fst ≠ some k →
        (playStart cfg st k t g).1.actionId = st.actionId + 1)
    ∧ (∀ p outcome t g, p.myId ≠ st.actionId →
        (playResolve cfg st p outcome t g).1.current = st.current
        ∧ ∀ n, Effect.startSource n ∉ (playResolve cfg st p outcome t g).2)
    ∧ (∀ p b outcome t g, p.myId = st.actionId → p.cached = some b →
        Effect.startSource st.nextNode ∈ (playResolve cfg st p outcome t g).2
        ∧ (playResolve cfg st p outcome t g).1.current.map Prod.fst = some p.key) := by
  refine ⟨stop_actionId cfg st t0 g0, ?_, ?_, ?_⟩
  · intro k t g hk
    exact (playStart_proj cfg st k t g hk).1
  · intro p outcome t g h
    obtain ⟨s_cur, -, -, s_nostart⟩ := playResolve_stale cfg st p outcome t g h
    exact ⟨s_cur, s_nostart⟩
  · intro p b outcome t g hid hc
    obtain ⟨f_cur, -, -, -, f_fx⟩ :=
      playResolve_fresh cfg st p outcome b t g hid (Or.inl hc)
    constructor
    · rw [f_fx]
      simp
    · rw [f_cur]
      rfl

/-- Witness for C3 (amended), on the fresh engine: stop keeps the counter
at 0, a play of C bumps it to 1, a mismatched stamp resolves to nothing,
and a matching cached stamp resolving after a stop starts source 1. -/
theorem cancellation_amended_witness :
    (stop cfgW stIdle 0 0).1.actionId = stIdle.actionId
    ∧ (playStart cfgW stIdle "C" 0 0).1.actionId = stIdle.actionId + 1
    ∧ ((playResolve cfgW stIdle ⟨5, "C", none⟩ LoadOutcome.httpError 0 0).1.current
          = stIdle.current
        ∧ ∀ n, Effect.startSource n ∉
            (playResolve cfgW stIdle ⟨5, "C", none⟩ LoadOutcome.httpError 0 0).2)
    ∧ (Effect.startSource stIdle.nextNode ∈
          (playResolve cfgW stIdle ⟨0, "C", some 7⟩ LoadOutcome.httpError 0 0).2
        ∧ (playResolve cfgW stIdle
            ⟨0, "C", some 7⟩ LoadOutcome.httpError 0 0).1.current.map Prod.fst
          = some "C") :=
  ⟨(cancellation_amended cfgW stIdle 0 0).1,
   (cancellation_amended cfgW stIdle 0 0).2.1 "C" 0 0 (by decide),
   (cancellation_amended cfgW stIdle 0 0).2.2.1 ⟨5, "C", none⟩ LoadOutcome.httpError 0 0
     (by decide),
   (cancellation_amended cfgW stIdle 0 0).2.2.2 ⟨0, "C", some 7⟩ 7 LoadOutcome.httpError 0 0
     rfl rfl⟩

/-- C4: crossfade scheduling.  A matching, successful resolution over a
current pad issues, in order: allocation and wiring of the new source and
gain, start at zero gain, the cancel-set-ramp of the new gain from 0 to 1
between t0 and t0 plus the fade, the cancel-set-ramp of the old gain from
its instantaneous reading v down to 0 over the very same window, and the
deferred stop of the old source at fadeMs + 60 ms; the current record
becomes the new pad. -/
theorem crossfade_scheduling (cfg : Config) (st : EngineState) (p : Pending)
    (outcome : LoadOutcome) (b : Nat) (t0 v : Rat)
    (kOld : String) (sOld gOld m : Nat)
    (hid : p.myId = st.actionId)
    (hold : st.current = some (kOld, sOld, gOld))
    (hm : st.masterGain = some m)
    (hbuf : p.cached = some b ∨ (p.cached = none ∧ outcome = LoadOutcome.ok b)) :
    (playResolve cfg st p outcome t0 v).2 =
      [Effect.createBufferSource st.nextNode, Effect.setBuffer st.nextNode b,
       Effect.setLoop st.nextNode, Effect.createGain (st.nextNode + 1),
       Effect.setValueNow (st.nextNode + 1) 0,
       Effect.connect (st.nextNode + 1) m,
       Effect.connect st.nextNode (st.nextNode + 1),
       Effect.startSource st.nextNode,
       Effect.cancelSched (st.nextNode + 1) t0,
       Effect.setValue (st.nextNode + 1) 0 t0,
       Effect.linearRamp (st.nextNode + 1) 1 (t0 + cfg.fadeMs / 1000),
       Effect.cancelSched gOld t0, Effect.setValue gOld v t0,
       Effect.linearRamp gOld 0 (t0 + cfg.fadeMs / 1000),
       Effect.scheduleStop sOld (cfg.fadeMs + 60)]
    ∧ (playResolve cfg st p outcome t0 v).1.current
        = some (p.key, st.nextNode, st.nextNode + 1) := by
  obtain ⟨f_cur, -, -, -, f_fx⟩ := playResolve_fresh cfg st p outcome b t0 v hid hbuf
  refine ⟨?_, f_cur⟩
  rw [f_fx]
  simp [hold, hm]

/-- Witness for C4: switching the live engine (pad D on source 2, gain 3,
reading 1) to pad E from the cache, at time 0. -/
theorem crossfade_scheduling_witness :
    (playResolve cfgW stLive ⟨3, "E", some 5⟩ LoadOutcome.httpError 0 1).2 =
      [Effect.createBufferSource 4, Effect.setBuffer 4 5, Effect.setLoop 4,
       Effect.createGain 5, Effect.setValueNow 5 0, Effect.connect 5 1,
       Effect.connect 4 5, Effect.startSource 4, Effect.cancelSched 5 0,
       Effect.setValue 5 0 0, Effect.linearRamp 5 1 (0 + cfgW.fadeMs / 1000),
       Effect.cancelSched 3 0, Effect.setValue 3 1 0,
       Effect.linearRamp 3 0 (0 + cfgW.fadeMs / 1000),
       Effect.scheduleStop 2 (cfgW.fadeMs + 60)]
    ∧ (playResolve cfgW stLive ⟨3, "E", some 5⟩ LoadOutcome.httpError 0 1).1.current
        = some ("E", 4, 5) :=
  crossfade_scheduling cfgW stLive ⟨3, "E", some 5⟩ LoadOutcome.httpError 5 0 1 "D" 2 3 1
    rfl rfl rfl (Or.inl rfl)

end AmbientPad
